import Mathlib

/-!
Verification of the sandboxed Git operation facade.

This file gives a shallow embedding of the path-sandboxing and
operation-facade layer of the repository (src/utils/validation.ts,
src/utils/global-settings.ts, the error service, the GitService class and
the git_merge tool handler) and proves or refutes the specified claims
about it.

Modelling conventions:
- Node path functions (path.posix.normalize, path.resolve, path.join) are
  embedded from the Node source semantics; all string machinery is built
  from structurally recursive functions over character lists so that every
  definition evaluates by kernel reduction.
- The JavaScript promise layer is dropped: each async method becomes a
  pure function taking the outcome of its underlying git or filesystem
  calls as an explicit oracle argument, and returning both its outcome
  (a thrown standardized error, or an operation result envelope) and the
  list of underlying git commands it invoked.
- Error timestamps are omitted (runtime clock); message texts are
  abridged (no string interpolation), since no claim depends on them.
-/

namespace GitMcp

/-- Boolean prefix test on character lists; this is exactly the semantics
of the JavaScript String.startsWith used by the source. -/
def listIsPre : List Char → List Char → Bool
  | [], _ => true
  | _ :: _, [] => false
  | a :: as, b :: bs => a == b && listIsPre as bs

/-- JavaScript String.startsWith, modelled on the character list of the string. -/
def strStartsWith (s pre : String) : Bool :=
  listIsPre pre.data s.data

/-- JavaScript String.endsWith restricted to a one character suffix, which is
the only use in the model (trailing separator detection). -/
def strEndsWith1 (s : String) (c : Char) : Bool :=
  match s.data.getLast? with
  | some d => d == c
  | none => false

/-- Splits a character list at every slash. Mirrors splitting a path on the
separator character as the Node path implementation does. -/
def splitSlashAux : List Char → List Char → List String
  | [], acc => [String.mk acc.reverse]
  | c :: rest, acc =>
    if c == '/' then String.mk acc.reverse :: splitSlashAux rest []
    else splitSlashAux rest (c :: acc)

/-- Splits a string into its slash separated segments. -/
def splitSlash (s : String) : List String :=
  splitSlashAux s.data []

/-- Joins segments with single slashes (the inverse of splitSlash on
normalized segment lists). -/
def joinSegs : List String → String
  | [] => ""
  | [s] => s
  | s :: rest => s ++ "/" ++ joinSegs rest

/-- One step of the segment resolution loop of Node normalizeString: the
stack of emitted segments is kept reversed (head is the most recent
segment). Empty and dot segments are skipped; a dotdot segment pops the
last real segment, and is kept only when the stack is empty or ends in
dotdot and climbing above the root is allowed (relative paths). -/
def normStep (allowAboveRoot : Bool) (stack : List String) (seg : String) : List String :=
  if seg == "" || seg == "." then stack
  else if seg == ".." then
    match stack with
    | t :: rest => if t ≠ ".." then rest
                   else if allowAboveRoot then ".." :: stack else stack
    | [] => if allowAboveRoot then [".."] else []
  else seg :: stack

/-- Node normalizeString on a segment list: resolves dot and dotdot
segments left to right. -/
def normSegs (allowAboveRoot : Bool) (segs : List String) : List String :=
  (segs.foldl (normStep allowAboveRoot) []).reverse

/-- Node path.posix.normalize, modelled from the Node source: records
absoluteness and a trailing separator, resolves dot and dotdot segments
(dotdot may climb above the start only for relative paths), and reattaches
the leading slash and trailing slash. -/
def pathNormalize (p : String) : String :=
  if p = "" then "."
  else
    let isAbs := strStartsWith p "/"
    let trailing := strEndsWith1 p '/'
    let core := joinSegs (normSegs (!isAbs) (splitSlash p))
    if core = "" then
      if isAbs then "/" else if trailing then "./" else "."
    else
      (if isAbs then "/" else "") ++ core ++ (if trailing then "/" else "")

/-- Node path.posix.resolve with two path arguments, for the case of an
absolute current working directory (Node guarantees process.cwd() is
absolute): the rightmost absolute path wins, relative parts are appended,
and the combined path is segment-resolved without climbing above the
root. -/
def pathResolve (cwd base rel : String) : String :=
  let combined :=
    if strStartsWith rel "/" then rel
    else if strStartsWith base "/" then base ++ "/" ++ rel
    else cwd ++ "/" ++ base ++ "/" ++ rel
  let segs := normSegs false (splitSlash combined)
  if segs.isEmpty then "/" else "/" ++ joinSegs segs

/-- Node path.posix.join of two components as used by the source
(path.join(a, b) concatenates with a separator and normalizes). -/
def pathJoin (a b : String) : String :=
  pathNormalize (a ++ "/" ++ b)

/-! Error taxonomy and result envelope, from the error handling service. -/

/-- Error category classification from ErrorCategoryType in the error
service: VALIDATION, GIT, MCP, SYSTEM, UNKNOWN. -/
inductive ErrorCategoryType where
  | validation
  | git
  | mcp
  | system
  | unknown
deriving DecidableEq, Repr

/-- Error severity classification from ErrorSeverityLevel in the error
service (numeric levels 0 through 4 in the source). -/
inductive ErrorSeverityLevel where
  | debug
  | info
  | warn
  | severityError
  | fatal
deriving DecidableEq, Repr

/-- StandardizedApplicationErrorObject from the error service. The
timestamp field is omitted (runtime clock) and the untyped context map is
modelled as a list of string pairs; the optional stack is omitted. -/
structure StandardizedError where
  errorMessage : String
  errorCode : String
  errorCategory : ErrorCategoryType
  errorSeverity : ErrorSeverityLevel
  errorContext : List (String × String)
deriving DecidableEq, Repr

/-- OperationResult from the error service: a tagged union of a success
carrying data and a failure carrying a standardized error. -/
inductive OperationResult (A : Type) where
  | success (data : A)
  | failure (error : StandardizedError)
deriving DecidableEq, Repr

/-- createStandardizedError from the error service. -/
def createStandardizedError (message code : String) (category : ErrorCategoryType)
    (severity : ErrorSeverityLevel) (context : List (String × String)) :
    StandardizedError :=
  ⟨message, code, category, severity, context⟩

/-- createGitError from the error service: category GIT, severity ERROR. -/
def createGitError (message code : String) (context : List (String × String)) :
    StandardizedError :=
  createStandardizedError message code ErrorCategoryType.git
    ErrorSeverityLevel.severityError context

/-- The error object thrown by the underlying simple-git layer (the
GitError shape the service reads): an Error instance with message, a git
specific code, and command diagnostics. Modelled from its use sites in
handleGitError. -/
structure GitRawError where
  message : String
  code : String
  command : String
  args : List String
  stderr : String
deriving DecidableEq, Repr

/-- An exception caught by a facade catch block: either a standardized
error object previously thrown by path validation, a simple-git error, or
some other runtime Error carrying only a message. -/
inductive CaughtError where
  | std (e : StandardizedError)
  | gitFail (e : GitRawError)
  | exn (message : String)
deriving DecidableEq, Repr

/-- wrapExceptionAsStandardizedError from the error service: code
UNEXPECTED_ERROR, category UNKNOWN, severity ERROR. The message is taken
from the exception when it is an Error instance (simple-git errors and
plain runtime errors are; a thrown standardized error object is a plain
object, so the default message is used for it). -/
def wrapExceptionAsStandardizedError (e : CaughtError) (defaultMessage : String) :
    StandardizedError :=
  let msg := match e with
    | .std _ => defaultMessage
    | .gitFail g => g.message
    | .exn m => m
  ⟨msg, "UNEXPECTED_ERROR", ErrorCategoryType.unknown,
    ErrorSeverityLevel.severityError, []⟩

/-- GitService.handleGitError: an exception with a truthy code field is
turned into a GIT category error via createGitError (falling back to the
default message when the git message is empty); anything else is wrapped
as an UNKNOWN category error. -/
def handleGitError (e : CaughtError) (defaultMessage : String) : StandardizedError :=
  match e with
  | .gitFail g =>
    if g.code = "" then wrapExceptionAsStandardizedError e defaultMessage
    else
      createGitError (if g.message = "" then defaultMessage else g.message)
        g.code
        [("command", g.command), ("args", joinSegs g.args), ("stderr", g.stderr)]
  | _ => wrapExceptionAsStandardizedError e defaultMessage

/-! Global settings and PathValidation. -/

/-- GlobalSettings: the allowed base directory (SandboxRoot, resolved from
the required environment variable at startup) and the mutable global
working directory slot (null when unset). -/
structure GlobalSettings where
  allowedBaseDir : String
  globalWorkingDir : Option String
deriving DecidableEq, Repr

/-- GlobalSettings.setGlobalWorkingDir: overwrites the single global slot
(pass none to clear it). -/
def setGlobalWorkingDir (s : GlobalSettings) (p : Option String) : GlobalSettings :=
  { s with globalWorkingDir := p }

/-- PathValidation.normalizePath: if the input is the placeholder "." and
a global working directory is set (JavaScript truthiness: a null or empty
value does not count), the normalized global directory is returned;
otherwise the input is normalized. -/
def normalizePath (gwd : Option String) (inputPath : String) : String :=
  if inputPath = "." then
    match gwd with
    | some d => if d = "" then pathNormalize inputPath else pathNormalize d
    | none => pathNormalize inputPath
  else pathNormalize inputPath

/-- PathValidation.isWithinDirectory: normalizes both paths and then
performs a raw string prefix test (startsWith) together with a length
comparison. Note this is a character prefix test, not a path segment
test. -/
def isWithinDirectory (targetPath basePath : String) : Bool :=
  let normalizedTarget := pathNormalize targetPath
  let normalizedBase := pathNormalize basePath
  strStartsWith normalizedTarget normalizedBase &&
    normalizedBase.length ≤ normalizedTarget.length

/-! GitService construction and relative path validation. -/

/-- A constructed GitService instance: after successful construction it is
bound to the validated, normalized repository path. -/
structure GitService where
  repoPath : String
deriving DecidableEq, Repr

/-- The GitService constructor path sandboxing: normalizes the requested
repository path (resolving the placeholder through the global working
directory) and throws a standardized VALIDATION error with code
PATH_OUTSIDE_BASEDIR when the result is not within the allowed base
directory. The throw happens before any git invocation. On success the
instance is bound to the normalized path. -/
def gitServiceCtor (settings : GlobalSettings) (repoPath : String) :
    Except StandardizedError GitService :=
  let normalizedRepoPath := normalizePath settings.globalWorkingDir repoPath
  if isWithinDirectory normalizedRepoPath settings.allowedBaseDir then
    .ok ⟨normalizedRepoPath⟩
  else
    .error (createStandardizedError
      "Access denied: repository path is outside the allowed base directory"
      "PATH_OUTSIDE_BASEDIR"
      ErrorCategoryType.validation ErrorSeverityLevel.severityError
      [("requestedPath", repoPath),
       ("resolvedPath", normalizedRepoPath),
       ("allowedBaseDir", settings.allowedBaseDir)])

/-- GitService.validateRelativePath: the special cases "." and "" are
returned untouched; otherwise the relative path is normalized, resolved
against the repository root, and rejected with a standardized VALIDATION
error with code PATH_TRAVERSAL_ATTEMPT unless the resolved path equals the
repository root or passes isWithinDirectory against it. On success the
normalized relative path is returned. -/
def validateRelativePath (cwd : String) (svc : GitService)
    (relativePath paramName : String) : Except StandardizedError String :=
  if relativePath = "." ∨ relativePath = "" then .ok relativePath
  else
    let normalizedRelativePath := pathNormalize relativePath
    let resolvedPath := pathResolve cwd svc.repoPath normalizedRelativePath
    if resolvedPath ≠ svc.repoPath ∧
        ¬ (isWithinDirectory resolvedPath svc.repoPath = true) then
      .error (createStandardizedError
        "Access denied: path attempts to traverse outside the repository root"
        "PATH_TRAVERSAL_ATTEMPT"
        ErrorCategoryType.validation ErrorSeverityLevel.severityError
        [("requestedPath", relativePath),
         ("resolvedPath", resolvedPath),
         ("repoPath", svc.repoPath),
         ("parameter", paramName)])
    else .ok normalizedRelativePath

/-! Facade operations. Each method of GitService becomes a pure function
over explicit oracles for its underlying git and filesystem calls. -/

/-- An underlying git command issued through the simple-git instance bound
to the repository. The global config probe performed once during facade
construction is environment bootstrap, not an operation command, and is
not part of this trace. -/
inductive GitCmd where
  | add (files : List String)
  | reset (args : List String)
  | merge (args : List String)
  | commitCmd (message : String)
  | initCmd (bare : Bool) (initialBranch : String)
  | raw (args : List String)
deriving DecidableEq, Repr

/-- The outcome of one underlying git call: a successful value, a
simple-git error (an Error instance carrying a git code), or some other
thrown runtime Error. -/
inductive GitOutcome (A : Type) where
  | ok (a : A)
  | gitFail (e : GitRawError)
  | exn (message : String)
deriving DecidableEq, Repr

/-- The observable behavior of one facade method call: its outcome (a
thrown standardized error on the error side, or the returned result
envelope on the ok side) together with the underlying git commands it
invoked, in order. -/
structure OpRun (A : Type) where
  outcome : Except StandardizedError (OperationResult A)
  gitCalls : List GitCmd
deriving Repr

/-- The catch block shared by the path-validating operations (stageFiles,
unstageFiles, getLog, getBlame, getDiff, getFileAtRef, getUnstagedDiff,
getStagedDiff, listFilesAtRef): an exception with a truthy errorCode field
is rethrown unchanged, anything else is classified by handleGitError and
returned as a failure result. -/
def catchRethrowStd {A : Type} (e : CaughtError) (defaultMessage : String) :
    Except StandardizedError (OperationResult A) :=
  match e with
  | .std s =>
    if s.errorCode = "" then .ok (.failure (handleGitError (.std s) defaultMessage))
    else .error s
  | other => .ok (.failure (handleGitError other defaultMessage))

/-- The catch block of the operations without the rethrow guard (initRepo,
cloneRepo, getStatus, commit, branch and remote operations, merge,
cherryPick, rebase, reset, clean, stash and tag operations): every
exception is classified and returned as a failure result. -/
def catchWrapAll {A : Type} (e : CaughtError) (defaultMessage : String) :
    Except StandardizedError (OperationResult A) :=
  .ok (.failure (handleGitError e defaultMessage))

/-- The member-wise validation loop files.map(file =>
this.validateRelativePath(file, "files")) used by stageFiles and
unstageFiles on array input: members are validated left to right and the
first thrown error aborts the loop. -/
def validateFilesList (cwd : String) (svc : GitService) :
    List String → Except StandardizedError (List String)
  | [] => .ok []
  | f :: fs =>
    match validateRelativePath cwd svc f "files" with
    | .error e => .error e
    | .ok v =>
      match validateFilesList cwd svc fs with
      | .error e => .error e
      | .ok vs => .ok (v :: vs)

/-- GitService.stageFiles: array input of length zero returns a success
result immediately without touching git; otherwise every member (or the
single path) is validated, git add is invoked on the validated paths, and
the shared catch either rethrows a standardized error or wraps the git
failure. The files argument is either a single path (inl) or an array
(inr), as in the TypeScript union type. -/
def stageFiles (cwd : String) (svc : GitService) (files : String ⊕ List String)
    (gitAdd : GitOutcome String) : OpRun String :=
  match files with
  | .inr [] => ⟨.ok (.success "No files to stage"), []⟩
  | .inr (f :: fs) =>
    match validateFilesList cwd svc (f :: fs) with
    | .error e => ⟨catchRethrowStd (.std e) "Failed to stage files", []⟩
    | .ok validated =>
      match gitAdd with
      | .ok s => ⟨.ok (.success s), [GitCmd.add validated]⟩
      | .gitFail g => ⟨catchRethrowStd (.gitFail g) "Failed to stage files",
          [GitCmd.add validated]⟩
      | .exn m => ⟨catchRethrowStd (.exn m) "Failed to stage files",
          [GitCmd.add validated]⟩
  | .inl f =>
    match validateRelativePath cwd svc f "files" with
    | .error e => ⟨catchRethrowStd (.std e) "Failed to stage files", []⟩
    | .ok v =>
      match gitAdd with
      | .ok s => ⟨.ok (.success s), [GitCmd.add [v]]⟩
      | .gitFail g => ⟨catchRethrowStd (.gitFail g) "Failed to stage files",
          [GitCmd.add [v]]⟩
      | .exn m => ⟨catchRethrowStd (.exn m) "Failed to stage files",
          [GitCmd.add [v]]⟩

/-- GitService.unstageFiles: same shape as stageFiles, but the underlying
command is git reset with a double dash followed by the validated paths. -/
def unstageFiles (cwd : String) (svc : GitService) (files : String ⊕ List String)
    (gitReset : GitOutcome String) : OpRun String :=
  match files with
  | .inr [] => ⟨.ok (.success "No files to unstage"), []⟩
  | .inr (f :: fs) =>
    match validateFilesList cwd svc (f :: fs) with
    | .error e => ⟨catchRethrowStd (.std e) "Failed to unstage files", []⟩
    | .ok validated =>
      match gitReset with
      | .ok s => ⟨.ok (.success s), [GitCmd.reset ("--" :: validated)]⟩
      | .gitFail g => ⟨catchRethrowStd (.gitFail g) "Failed to unstage files",
          [GitCmd.reset ("--" :: validated)]⟩
      | .exn m => ⟨catchRethrowStd (.exn m) "Failed to unstage files",
          [GitCmd.reset ("--" :: validated)]⟩
  | .inl f =>
    match validateRelativePath cwd svc f "files" with
    | .error e => ⟨catchRethrowStd (.std e) "Failed to unstage files", []⟩
    | .ok v =>
      match gitReset with
      | .ok s => ⟨.ok (.success s), [GitCmd.reset ["--", v]]⟩
      | .gitFail g => ⟨catchRethrowStd (.gitFail g) "Failed to unstage files",
          [GitCmd.reset ["--", v]]⟩
      | .exn m => ⟨catchRethrowStd (.exn m) "Failed to unstage files",
          [GitCmd.reset ["--", v]]⟩

/-- GitService.getBlame: validates the file path, then runs git blame on
the validated path; the shared catch rethrows standardized errors. -/
def getBlame (cwd : String) (svc : GitService) (filePath : String)
    (gitBlame : GitOutcome String) : OpRun String :=
  match validateRelativePath cwd svc filePath "filePath" with
  | .error e => ⟨catchRethrowStd (.std e) "Failed to get blame", []⟩
  | .ok v =>
    match gitBlame with
    | .ok s => ⟨.ok (.success s), [GitCmd.raw ["blame", v]]⟩
    | .gitFail g => ⟨catchRethrowStd (.gitFail g) "Failed to get blame",
        [GitCmd.raw ["blame", v]]⟩
    | .exn m => ⟨catchRethrowStd (.exn m) "Failed to get blame",
        [GitCmd.raw ["blame", v]]⟩

/-- The newline character. -/
def chr10 : Char := Char.ofNat 10

/-- Splits raw git output into lines and drops blank lines, mirroring
result.split of newline followed by the trim filter in listFilesAtRef. -/
def splitLinesAux : List Char → List Char → List String
  | [], acc => [String.mk acc.reverse]
  | c :: rest, acc =>
    if c == chr10 then String.mk acc.reverse :: splitLinesAux rest []
    else splitLinesAux rest (c :: acc)

/-- Splits output on newlines and keeps only nonempty lines. The source
filters with trim; the model drops exactly the empty lines, which agrees
with it on all slash separated path names. -/
def nonBlankLines (s : String) : List String :=
  (splitLinesAux s.data []).filter (fun l => l ≠ "")

/-- GitService.listFilesAtRef: validates the directory path, then runs
git ls-tree with name-only output, the reference and the validated path
(no recursive flag), and splits the output into lines. The underlying git
call is an oracle from the full argument list, so the pathspec the code
builds determines the answer. -/
def listFilesAtRef (cwd : String) (svc : GitService) (dirPath ref : String)
    (gitRaw : List String → GitOutcome String) : OpRun (List String) :=
  match validateRelativePath cwd svc dirPath "dirPath" with
  | .error e => ⟨catchRethrowStd (.std e) "Failed to list files", []⟩
  | .ok v =>
    let args := ["ls-tree", "--name-only", ref, v]
    match gitRaw args with
    | .ok out => ⟨.ok (.success (nonBlankLines out)), [GitCmd.raw args]⟩
    | .gitFail g => ⟨catchRethrowStd (.gitFail g) "Failed to list files",
        [GitCmd.raw args]⟩
    | .exn m => ⟨catchRethrowStd (.exn m) "Failed to list files",
        [GitCmd.raw args]⟩

/-- Merge options consumed by GitService.merge and the git_merge handler.
Field names follow the call sites in the service and the handler (the
declaring types file is not among the sources). -/
structure GitMergeOptions where
  branch : String
  message : Option String
  fastForwardOnly : Bool
  noFastForward : Bool
deriving DecidableEq, Repr

/-- The argument list GitService.merge builds: starting from the branch,
it unshifts the fast-forward-only flag, then the no-fast-forward flag,
then the message pair. No mutual exclusion check is performed here. -/
def mergeParams (options : GitMergeOptions) : List String :=
  let p := [options.branch]
  let p := if options.fastForwardOnly then "--ff-only" :: p else p
  let p := if options.noFastForward then "--no-ff" :: p else p
  match options.message with
  | some m => "-m" :: m :: p
  | none => p

/-- GitService.merge: invokes git merge with the built parameters; every
failure is wrapped into a failure result (this catch has no rethrow
guard). -/
def mergeOp (_svc : GitService) (options : GitMergeOptions)
    (gitMerge : GitOutcome String) : OpRun String :=
  let cmd := GitCmd.merge (mergeParams options)
  match gitMerge with
  | .ok s => ⟨.ok (.success s), [cmd]⟩
  | .gitFail g => ⟨catchWrapAll (.gitFail g) "Failed to merge branch", [cmd]⟩
  | .exn m => ⟨catchWrapAll (.exn m) "Failed to merge branch", [cmd]⟩

/-- GitService.cherryPick: an empty commit list returns a success result
immediately without touching git; otherwise git cherry-pick runs on the
commits and failures are wrapped (no rethrow guard). -/
def cherryPick (_svc : GitService) (commits : List String)
    (gitRaw : GitOutcome String) : OpRun String :=
  match commits with
  | [] => ⟨.ok (.success "No commits specified for cherry-pick"), []⟩
  | c :: cs =>
    let cmd := GitCmd.raw ("cherry-pick" :: c :: cs)
    match gitRaw with
    | .ok s => ⟨.ok (.success s), [cmd]⟩
    | .gitFail g => ⟨catchWrapAll (.gitFail g) "Failed to cherry-pick commits", [cmd]⟩
    | .exn m => ⟨catchWrapAll (.exn m) "Failed to cherry-pick commits", [cmd]⟩

/-- The outcomes of the calls initRepo makes: the directory creation
(ensureRepoPathExists, a filesystem step whose failure message is carried
when it throws), git init, the README write (a filesystem step), git add
and git commit for the bootstrap commit. -/
structure InitEnv where
  ensureDirFailure : Option String
  initOutcome : GitOutcome String
  writeReadmeFailure : Option String
  addOutcome : GitOutcome String
  commitOutcome : GitOutcome String
deriving Repr

/-- The git commands the bootstrap commit block of initRepo issues: none
when the README write throws; only the add when the add throws; the add
and the commit otherwise (the commit is invoked even when it fails, and
its failure is only logged). -/
def initBootstrapCalls (env : InitEnv) : List GitCmd :=
  match env.writeReadmeFailure with
  | some _ => []
  | none =>
    match env.addOutcome with
    | .ok _ => [GitCmd.add ["README.md"], GitCmd.commitCmd "Initial commit"]
    | .gitFail _ => [GitCmd.add ["README.md"]]
    | .exn _ => [GitCmd.add ["README.md"]]

/-- GitService.initRepo: ensures the repository directory exists, runs git
init, and for a non-bare repository attempts a bootstrap commit inside an
inner try whose failures are swallowed (logged only); the operation result
is the init result whenever init succeeded. The outer catch wraps every
failure (no rethrow guard). -/
def initRepo (_svc : GitService) (bare : Bool) (initialBranch : String)
    (env : InitEnv) : OpRun String :=
  match env.ensureDirFailure with
  | some m => ⟨catchWrapAll (.exn m) "Failed to initialize repository", []⟩
  | none =>
    let cmd := GitCmd.initCmd bare initialBranch
    match env.initOutcome with
    | .gitFail g => ⟨catchWrapAll (.gitFail g) "Failed to initialize repository", [cmd]⟩
    | .exn m => ⟨catchWrapAll (.exn m) "Failed to initialize repository", [cmd]⟩
    | .ok result =>
      if bare then ⟨.ok (.success result), [cmd]⟩
      else ⟨.ok (.success result), cmd :: initBootstrapCalls env⟩

/-- GitService.isGitRepository: normalizes the requested directory; when
it is not within the allowed base directory the method logs a warning and
returns false (it does not throw and does not build an error record).
Otherwise it probes the filesystem for a dot-git entry, falling back to
the bare repository marker files. The filesystem is an oracle saying
which paths are accessible. -/
def isGitRepository (settings : GlobalSettings) (svc : GitService)
    (dirPath : Option String) (fsAccess : String → Bool) : Bool :=
  let dp := dirPath.getD svc.repoPath
  let normalizedDirPath := normalizePath settings.globalWorkingDir dp
  if ¬ (isWithinDirectory normalizedDirPath settings.allowedBaseDir = true) then
    false
  else
    if fsAccess (pathJoin normalizedDirPath ".git") then true
    else
      ["HEAD", "config", "objects", "refs"].all
        (fun f => fsAccess (pathJoin normalizedDirPath f))

/-! The git_merge protocol handler from the branch tools module. -/

/-- The wire response a tool handler produces: the text content and the
error flag. -/
structure McpResponse where
  text : String
  isError : Bool
deriving DecidableEq, Repr

/-- The observable behavior of one handler call: the response together
with the underlying git commands invoked on its behalf. -/
structure McpRun where
  response : McpResponse
  gitCalls : List GitCmd
deriving Repr

/-- Stringification of a thrown value in the handler catch block:
error instanceof Error gives its message for Error instances, and the
generic object rendering for a thrown standardized error object, which is
a plain object. -/
def caughtText (_e : StandardizedError) : String :=
  "[object Object]"

/-- The git_merge tool handler: normalizes the path, constructs the
facade (whose sandbox rejection is caught at the bottom and rendered as an
error response), checks that the target is a repository, rejects the
combination of the two fast-forward flags before invoking the facade
merge, and otherwise renders the merge result. -/
def gitMergeTool (settings : GlobalSettings) (path branch : String)
    (message : Option String) (fastForwardOnly noFastForward : Bool)
    (fsAccess : String → Bool) (gitMerge : GitOutcome String) : McpRun :=
  match gitServiceCtor settings (normalizePath settings.globalWorkingDir path) with
  | .error e => ⟨⟨"Error: " ++ caughtText e, true⟩, []⟩
  | .ok svc =>
    if ¬ (isGitRepository settings svc none fsAccess = true) then
      ⟨⟨"Error: Not a Git repository: " ++ svc.repoPath, true⟩, []⟩
    else if fastForwardOnly && noFastForward then
      ⟨⟨"Error: Cannot specify both fastForwardOnly and noFastForward", true⟩, []⟩
    else
      let run := mergeOp svc ⟨branch, message, fastForwardOnly, noFastForward⟩ gitMerge
      match run.outcome with
      | .ok (.success _) =>
        ⟨⟨"Successfully merged branch " ++ branch ++ " into current branch", false⟩,
          run.gitCalls⟩
      | .ok (.failure err) =>
        ⟨⟨"Error: " ++ err.errorMessage, true⟩, run.gitCalls⟩
      | .error e => ⟨⟨"Error: " ++ caughtText e, true⟩, run.gitCalls⟩

/-! A model of the external git ls-tree command, needed to settle the
directory-listing claim. This is the one definition in the file that does
not embed repository code: it embeds the documented behavior of the
external tool the facade shells out to. -/

/-- The nonempty prefixes of a file path (as segment lists): every entry
of the tree the path passes through, including the blob itself. -/
def nePre : List String → List (List String)
  | [] => []
  | s :: rest => [s] :: (nePre rest).map (fun p => s :: p)

/-- All entries of a repository tree given as a list of blob paths: each
blob contributes itself and every enclosing directory, without
duplicates. -/
def treeEntries (tree : List (List String)) : List (List String) :=
  (tree.flatMap nePre).eraseDups

/-- Modelled from the documented behavior of the external git ls-tree
command without the recursive flag, with name-only output and one
pathspec: a dot or empty pathspec lists the top level entries; a pathspec
with a trailing slash lists the immediate children of that directory
(printed with their full path from the root); any other pathspec lists
exactly the entries whose full path equals it — for a directory this is
the directory entry itself, not its children. Recursion never descends
past the matched entries, so entries nested below a matched directory are
never printed. -/
def lsTreeNames (tree : List (List String)) (pathspec : String) : List String :=
  let entries := treeEntries tree
  if pathspec = "." ∨ pathspec = "" then
    (entries.filter (fun e => e.length = 1)).map joinSegs
  else if strEndsWith1 pathspec '/' then
    let ps := splitSlash (String.mk pathspec.data.dropLast)
    (entries.filter (fun e => e.length = ps.length + 1 ∧ e.take ps.length = ps)).map
      joinSegs
  else
    let ps := splitSlash pathspec
    (entries.filter (fun e => e = ps)).map joinSegs

/-- Joins lines with newline characters (structurally recursive, used by
the ls-tree oracle). -/
def joinLines : List String → String
  | [] => ""
  | [s] => s
  | s :: rest => s ++ String.mk [chr10] ++ joinLines rest

/-- A git call oracle backed by the ls-tree model: it answers exactly the
argument lists listFilesAtRef builds and joins the matched names with
newlines. -/
def lsTreeOracle (tree : List (List String)) (args : List String) :
    GitOutcome String :=
  match args with
  | ["ls-tree", "--name-only", _ref, p] =>
    .ok (joinLines (lsTreeNames tree p))
  | _ => .exn "unexpected git invocation"

/-! The containment predicate in the words of the specification, used to
compare the code against the claims about sandbox comparison. -/

/-- Modelled from the words of the specification: a candidate path is
equal to or nested under a root when, after normalization, it is the root
itself or extends it at a path segment boundary (segment-aware
comparison, by contrast with the raw string prefix test of the code). -/
def specNestedUnder (candidate root : String) : Bool :=
  let c := pathNormalize candidate
  let r := pathNormalize root
  c == r || (if r = "/" then strStartsWith c "/" else strStartsWith c (r ++ "/"))

/-! Contracts used to state the failure-semantics claim. -/

/-- The only outcomes a facade method may throw (rather than return) are
standardized VALIDATION errors produced by path validation before any git
command ran: whenever a run ends in a thrown error, that error has
category VALIDATION, severity ERROR, the traversal code, and the run
invoked no git command. -/
def validationThrowOnly {A : Type} (run : OpRun A) : Prop :=
  ∀ e, run.outcome = .error e →
    e.errorCategory = ErrorCategoryType.validation ∧
    e.errorSeverity = ErrorSeverityLevel.severityError ∧
    e.errorCode = "PATH_TRAVERSAL_ATTEMPT" ∧
    run.gitCalls = []

/-- Whenever the underlying git call of an operation fails (with a
simple-git error or any other runtime Error) after actually being
invoked, the operation returns the classified failure envelope instead of
throwing. -/
def underlyingFailureWrapped {A : Type} (mk : GitOutcome String → OpRun A)
    (defaultMessage : String) : Prop :=
  ∀ g m,
    ((mk (.gitFail g)).gitCalls ≠ [] →
      (mk (.gitFail g)).outcome
        = .ok (.failure (handleGitError (.gitFail g) defaultMessage))) ∧
    ((mk (.exn m)).gitCalls ≠ [] →
      (mk (.exn m)).outcome
        = .ok (.failure (handleGitError (.exn m) defaultMessage)))

end GitMcp

namespace GitMcp

example : pathNormalize "/data/repoA" = "/data/repoA" := by decide
example : pathNormalize "." = "." := by decide
example : pathNormalize "a/" = "a/" := by decide
example : pathNormalize "/.." = "/" := by decide
example : pathNormalize "../a" = "../a" := by decide
example : pathNormalize "subdir/../file" = "file" := by decide
example : pathResolve "/" "/data/repoA" "../repoAA/secret" = "/data/repoAA/secret" := by decide
example : pathJoin "/x/y" ".git" = "/x/y/.git" := by decide
example : strStartsWith "/data/repoAA/file" "/data/repoA" = true := by decide
example : strStartsWith "." "/base" = false := by decide

example :
    gitServiceCtor ⟨"/data", none⟩ "/data/repoA" = .ok ⟨"/data/repoA"⟩ := by rfl

example :
    validateRelativePath "/" ⟨"/data/repoA"⟩ "../repoAA/secret" "p"
      = .ok "../repoAA/secret" := by rfl

example :
    ∃ e, validateRelativePath "/" ⟨"/data/repoA"⟩ "../repoB/secret" "p"
      = .error e ∧ e.errorCategory = ErrorCategoryType.validation := by
  refine ⟨_, rfl, rfl⟩

example :
    (listFilesAtRef "/" ⟨"/repo"⟩ "a" "HEAD"
        (lsTreeOracle [["a", "b", "c.txt"]])).outcome
      = .ok (.success ["a"]) := by rfl

example : lsTreeNames [["a", "b", "c.txt"]] "a/" = ["a/b"] := by decide

example : lsTreeNames [["a", "b", "c.txt"], ["top.txt"]] "." = ["a", "top.txt"] := by decide

/-! Helper lemmas about the path model and validation. -/

/-- A string whose startsWith slash test succeeds has a slash as its first
character. -/
theorem startsWithSlash_data {p : String} (h : strStartsWith p "/" = true) :
    ∃ cs, p.data = '/' :: cs := by
  unfold strStartsWith at h
  cases hd : p.data with
  | nil => rw [hd] at h; simp [listIsPre] at h
  | cons c cs =>
    rw [hd] at h
    simp only [listIsPre, Bool.and_true, beq_iff_eq] at h
    subst h
    exact ⟨cs, rfl⟩

/-- String append concatenates the character data. -/
theorem strData_append (a b : String) : (a ++ b).data = a.data ++ b.data := by
  cases a; cases b; rfl

/-- Normalizing an absolute path yields an absolute path: its data starts
with a slash. -/
theorem pathNormalize_slash_head {p : String} (h : strStartsWith p "/" = true) :
    ∃ cs, (pathNormalize p).data = '/' :: cs := by
  obtain ⟨cs, hcs⟩ := startsWithSlash_data h
  have hne : p ≠ "" := by
    intro hp
    rw [hp] at hcs
    exact List.noConfusion hcs
  unfold pathNormalize
  rw [if_neg hne, h]
  by_cases hcore : joinSegs (normSegs (!true) (splitSlash p)) = ""
  · rw [if_pos hcore]
    exact ⟨[], rfl⟩
  · rw [if_neg hcore]
    refine ⟨(joinSegs (normSegs (!true) (splitSlash p))).data ++
      (if strEndsWith1 p '/' then ("/" : String) else "").data, ?_⟩
    rw [strData_append, strData_append]
    rfl

/-- The placeholder path is never within an absolute base directory under
the prefix test of the code, because the normalized placeholder stays the
one dot character. -/
theorem notWithin_dot {base : String} (h : strStartsWith base "/" = true) :
    isWithinDirectory "." base = false := by
  obtain ⟨cs, hcs⟩ := pathNormalize_slash_head h
  unfold isWithinDirectory
  have h1 : strStartsWith (pathNormalize ".") (pathNormalize base) = false := by
    unfold strStartsWith
    rw [hcs]
    have : (pathNormalize ".").data = ['.'] := by rfl
    rw [this]
    simp [listIsPre]
  simp only [h1, Bool.false_and]

end GitMcp

namespace GitMcp

/-- Any error thrown by validateRelativePath has category VALIDATION,
severity ERROR and the traversal code. -/
theorem validateRelativePath_error_shape (cwd : String) (svc : GitService)
    (p n : String) (e : StandardizedError)
    (h : validateRelativePath cwd svc p n = .error e) :
    e.errorCategory = ErrorCategoryType.validation ∧
    e.errorSeverity = ErrorSeverityLevel.severityError ∧
    e.errorCode = "PATH_TRAVERSAL_ATTEMPT" := by
  by_cases h0 : p = "." ∨ p = ""
  · simp only [validateRelativePath, if_pos h0] at h
    exact Except.noConfusion h
  · simp only [validateRelativePath, if_neg h0] at h
    by_cases h1 : pathResolve cwd svc.repoPath (pathNormalize p) ≠ svc.repoPath ∧
        ¬ (isWithinDirectory (pathResolve cwd svc.repoPath (pathNormalize p))
          svc.repoPath = true)
    · rw [if_pos h1] at h
      injection h with h2
      rw [← h2]
      exact ⟨rfl, rfl, rfl⟩
    · rw [if_neg h1] at h
      exact Except.noConfusion h

/-- Any error thrown by the member validation loop has the same shape. -/
theorem validateFilesList_error_shape (cwd : String) (svc : GitService)
    (l : List String) (e : StandardizedError)
    (h : validateFilesList cwd svc l = .error e) :
    e.errorCategory = ErrorCategoryType.validation ∧
    e.errorSeverity = ErrorSeverityLevel.severityError ∧
    e.errorCode = "PATH_TRAVERSAL_ATTEMPT" := by
  induction l with
  | nil => exact Except.noConfusion h
  | cons f fs ih =>
    cases hv : validateRelativePath cwd svc f "files" with
    | error e2 =>
      simp only [validateFilesList, hv] at h
      injection h with h2
      rw [← h2]
      exact validateRelativePath_error_shape cwd svc f "files" e2 hv
    | ok v =>
      simp only [validateFilesList, hv] at h
      cases hr : validateFilesList cwd svc fs with
      | error e3 =>
        rw [hr] at h
        change Except.error e3 = Except.error e at h
        injection h with h2
        rw [h2] at hr
        exact ih hr
      | ok vs =>
        rw [hr] at h
        change Except.ok (v :: vs) = Except.error e at h
        exact Except.noConfusion h

/-- A path accepted by validateRelativePath is one of the two special
literals or resolves to the repository root or within it. -/
theorem validateRelativePath_ok_cases (cwd : String) (svc : GitService)
    (x n v : String) (h : validateRelativePath cwd svc x n = .ok v) :
    x = "." ∨ x = "" ∨
      pathResolve cwd svc.repoPath (pathNormalize x) = svc.repoPath ∨
      isWithinDirectory (pathResolve cwd svc.repoPath (pathNormalize x))
        svc.repoPath = true := by
  by_cases h0 : x = "." ∨ x = ""
  · exact h0.elim (fun a => Or.inl a) (fun b => Or.inr (Or.inl b))
  · simp only [validateRelativePath, if_neg h0] at h
    by_cases h1 : pathResolve cwd svc.repoPath (pathNormalize x) ≠ svc.repoPath ∧
        ¬ (isWithinDirectory (pathResolve cwd svc.repoPath (pathNormalize x))
          svc.repoPath = true)
    · rw [if_pos h1] at h
      exact Except.noConfusion h
    · right; right
      by_cases h2 : pathResolve cwd svc.repoPath (pathNormalize x) = svc.repoPath
      · exact Or.inl h2
      · exact Or.inr (not_not.mp (fun hw => h1 ⟨h2, hw⟩))

/-- Every member of a list accepted by the validation loop was itself
accepted by validateRelativePath. -/
theorem validateFilesList_ok_member (cwd : String) (svc : GitService)
    (l : List String) (vs : List String)
    (h : validateFilesList cwd svc l = .ok vs) :
    ∀ x ∈ l, ∃ v, validateRelativePath cwd svc x "files" = .ok v := by
  induction l generalizing vs with
  | nil => intro x hx; exact absurd hx (List.not_mem_nil x)
  | cons f fs ih =>
    intro x hx
    cases hv : validateRelativePath cwd svc f "files" with
    | error e2 =>
      simp only [validateFilesList, hv] at h
      exact Except.noConfusion h
    | ok v =>
      simp only [validateFilesList, hv] at h
      cases hr : validateFilesList cwd svc fs with
      | error e3 =>
        rw [hr] at h
        change Except.error e3 = Except.ok vs at h
        exact Except.noConfusion h
      | ok vs2 =>
        rcases List.mem_cons.mp hx with hx1 | hx2
        · exact ⟨v, hx1 ▸ hv⟩
        · exact ih vs2 hr x hx2

end GitMcp

namespace GitMcp

/-- C1: the claim states that every caller-supplied path that, after
normalization, is neither equal to nor nested under its governing root
(SandboxRoot for the repository path, the bound repository root for a
secondary relative path) fails with a category Validation error before any
git command runs. The code refutes it: the containment check is a raw
string prefix test, so with SandboxRoot /data/repoA the facade is
constructed successfully for the sibling /data/repoAA, and with repository
root /data/repoA (inside SandboxRoot /data) the secondary relative path
../repoAA/secret, which resolves to the sibling /data/repoAA/secret and is
not nested under the repository root in the segment-aware sense of the
specification (specNestedUnder), passes validation. -/
theorem C1_prefix_sibling_escape_accepted :
    gitServiceCtor ⟨"/data/repoA", none⟩ "/data/repoAA"
      = .ok ⟨"/data/repoAA"⟩ ∧
    specNestedUnder "/data/repoAA" "/data/repoA" = false ∧
    validateRelativePath "/" ⟨"/data/repoA"⟩ "../repoAA/secret" "files"
      = .ok "../repoAA/secret" ∧
    specNestedUnder "/data/repoAA/secret" "/data/repoA" = false :=
  ⟨rfl, by decide, rfl, by decide⟩

/-- C2: the claim states the sandbox containment check is segment-aware
and rejects sibling-prefix collisions. The code refutes it:
isWithinDirectory is a raw string prefix test and accepts the candidate
/data/repoAA/file against root /data/repoA, and /repository against
/repo, although neither is equal to nor nested under the root in the
segment-aware sense of the specification. -/
theorem C2_isWithinDirectory_accepts_sibling_prefix :
    isWithinDirectory "/data/repoAA/file" "/data/repoA" = true ∧
    specNestedUnder "/data/repoAA/file" "/data/repoA" = false ∧
    isWithinDirectory "/repository" "/repo" = true ∧
    specNestedUnder "/repository" "/repo" = false := by decide

/-- C6: for a non-bare initialization whose directory step and git init
step succeed, the operation returns the success envelope carrying the init
result, whatever the outcome of the bootstrap commit steps (README write,
git add, git commit): their failures are only logged. -/
theorem C6_init_nonbare_success_despite_bootstrap_failure
    (svc : GitService) (initialBranch r : String) (env : InitEnv)
    (hdir : env.ensureDirFailure = none) (hinit : env.initOutcome = .ok r) :
    (initRepo svc false initialBranch env).outcome = .ok (.success r) := by
  unfold initRepo
  rw [hdir, hinit]
  rfl

/-- Witness for C6 at a concrete environment whose bootstrap commit
fails with a git error: the operation still reports success. -/
theorem C6_init_nonbare_success_despite_bootstrap_failure_witness :
    (initRepo ⟨"/base/repo"⟩ false "main"
        ⟨none, .ok "init done", none, .ok "",
          .gitFail ⟨"bootstrap commit failed", "ERR", "commit", [], ""⟩⟩).outcome
      = .ok (.success "init done") :=
  C6_init_nonbare_success_despite_bootstrap_failure ⟨"/base/repo"⟩ "main"
    "init done" _ rfl rfl

/-- C7: the claim states that listing directory a of a tree containing
a/b/c.txt yields b and not a/b/c.txt. The code passes the validated
directory path to ls-tree without the recursive flag and without a
trailing separator, so the listing returns the directory entry a itself:
it indeed never contains the nested a/b/c.txt, but it does not contain b
either (the children listing would require the trailing-slash pathspec,
whose output a/b is shown in the second conjunct). -/
theorem C7_listing_directory_returns_entry_itself :
    (listFilesAtRef "/" ⟨"/repo"⟩ "a" "HEAD"
        (lsTreeOracle [["a", "b", "c.txt"]])).outcome
      = .ok (.success ["a"]) ∧
    lsTreeNames [["a", "b", "c.txt"]] "a/" = ["a/b"] :=
  ⟨rfl, by decide⟩

/-- C8: for a directory whose normalization fails the sandbox containment
check, isGitRepository returns the boolean false, whatever the filesystem
says, rather than throwing or reporting a categorized error (the return
type of the embedded method is Bool, so no error object can be
returned). -/
theorem C8_isGitRepository_false_outside_sandbox
    (settings : GlobalSettings) (svc : GitService) (dirPath : String)
    (fsAccess : String → Bool)
    (h : isWithinDirectory (normalizePath settings.globalWorkingDir dirPath)
        settings.allowedBaseDir = false) :
    isGitRepository settings svc (some dirPath) fsAccess = false := by
  simp [isGitRepository, h]

/-- Witness for C8: with SandboxRoot /base, probing /outside returns
false even though the filesystem oracle reports every path as present. -/
theorem C8_isGitRepository_false_outside_sandbox_witness :
    isWithinDirectory (normalizePath none "/outside") "/base" = false ∧
    isGitRepository ⟨"/base", none⟩ ⟨"/base/repo"⟩ (some "/outside")
      (fun _ => true) = false :=
  ⟨by decide, C8_isGitRepository_false_outside_sandbox ⟨"/base", none⟩
    ⟨"/base/repo"⟩ "/outside" (fun _ => true) (by decide)⟩

/-- C10: stageFiles and unstageFiles on an empty array and cherryPick on
an empty commit list return a success result carrying the descriptive
message, and invoke no git command, whatever the underlying git oracle
would do. -/
theorem C10_empty_inputs_return_success_without_git
    (cwd : String) (svc : GitService) (gAdd gReset gRaw : GitOutcome String) :
    stageFiles cwd svc (.inr []) gAdd
      = ⟨.ok (.success "No files to stage"), []⟩ ∧
    unstageFiles cwd svc (.inr []) gReset
      = ⟨.ok (.success "No files to unstage"), []⟩ ∧
    cherryPick svc [] gRaw
      = ⟨.ok (.success "No commits specified for cherry-pick"), []⟩ :=
  ⟨rfl, rfl, rfl⟩

end GitMcp

namespace GitMcp

/-- C4: with the global working directory set to a nonempty D, the
placeholder path resolves through normalizePath to the normalization of D,
and facade construction on the placeholder binds the repository to that
directory (when it passes the sandbox check); after the directory is
cleared, constructing on the placeholder fails with a category Validation
error carrying the out-of-sandbox code, because the placeholder normalizes
to the bare dot, which can never pass the containment test against the
absolute base directory. -/
theorem C4_placeholder_resolves_then_fails_after_clear
    (base D : String) (hD : D ≠ "") (habs : strStartsWith base "/" = true)
    (hwithin : isWithinDirectory (pathNormalize D) base = true) :
    normalizePath (some D) "." = pathNormalize D ∧
    gitServiceCtor ⟨base, some D⟩ "." = .ok ⟨pathNormalize D⟩ ∧
    ∃ e, gitServiceCtor ⟨base, none⟩ "." = .error e ∧
      e.errorCategory = ErrorCategoryType.validation ∧
      e.errorCode = "PATH_OUTSIDE_BASEDIR" := by
  have h1 : normalizePath (some D) "." = pathNormalize D := by
    simp [normalizePath, hD]
  refine ⟨h1, ?_, ?_⟩
  · simp only [gitServiceCtor, h1]
    rw [if_pos hwithin]
  · have h3 : normalizePath (GlobalSettings.mk base none).globalWorkingDir "." = "." := rfl
    have hniw : isWithinDirectory "." base = false := notWithin_dot habs
    refine ⟨createStandardizedError
      "Access denied: repository path is outside the allowed base directory"
      "PATH_OUTSIDE_BASEDIR"
      ErrorCategoryType.validation ErrorSeverityLevel.severityError
      [("requestedPath", "."), ("resolvedPath", "."), ("allowedBaseDir", base)],
      ?_, rfl, rfl⟩
    simp only [gitServiceCtor, h3]
    rw [if_neg (show ¬ (isWithinDirectory "." base = true) by simp [hniw])]

/-- Witness for C4 at base /base and global working directory
/base/repo. -/
theorem C4_placeholder_resolves_then_fails_after_clear_witness :
    ("/base/repo" : String) ≠ "" ∧
    strStartsWith "/base" "/" = true ∧
    isWithinDirectory (pathNormalize "/base/repo") "/base" = true ∧
    (normalizePath (some "/base/repo") "." = pathNormalize "/base/repo" ∧
     gitServiceCtor ⟨"/base", some "/base/repo"⟩ "." = .ok ⟨pathNormalize "/base/repo"⟩ ∧
     ∃ e, gitServiceCtor ⟨"/base", none⟩ "." = .error e ∧
       e.errorCategory = ErrorCategoryType.validation ∧
       e.errorCode = "PATH_OUTSIDE_BASEDIR") :=
  ⟨by decide, by decide, by decide,
    C4_placeholder_resolves_then_fails_after_clear "/base" "/base/repo"
      (by decide) (by decide) (by decide)⟩

/-- C5: whenever the git_merge handler is invoked with both the
fast-forward-only flag and the never-fast-forward flag, it answers an
error response and no git command is invoked on its behalf — in
particular the merge command never runs — whatever the settings, the
path, the filesystem state and the underlying merge oracle. The
repository probe that runs before the check touches only the filesystem,
and the facade constructor performs no repository operation command. -/
theorem C5_merge_flag_conflict_rejected_before_git
    (settings : GlobalSettings) (path branch : String) (message : Option String)
    (fsAccess : String → Bool) (gitMerge : GitOutcome String) :
    (gitMergeTool settings path branch message true true fsAccess
        gitMerge).response.isError = true ∧
    (gitMergeTool settings path branch message true true fsAccess
        gitMerge).gitCalls = [] := by
  unfold gitMergeTool
  cases hc : gitServiceCtor settings (normalizePath settings.globalWorkingDir path) with
  | error e => exact ⟨rfl, rfl⟩
  | ok svc =>
    by_cases hr : isGitRepository settings svc none fsAccess = true
    · simp [hr]
    · simp [hr]

end GitMcp

namespace GitMcp

/-- C9: stageFiles and unstageFiles accept a single path or a list; the
two marker literals (the dot, designating everything, and the empty
string) pass validateRelativePath untouched, and whenever either
operation actually invokes its git command, every member of the argument
was the marker literal or resolved to the repository root or within it
under the sandbox check. -/
theorem C9_members_validated_marker_bypassed
    (cwd : String) (svc : GitService) (f : String) (fs : List String)
    (g : GitOutcome String) :
    validateRelativePath cwd svc "." "files" = .ok "." ∧
    validateRelativePath cwd svc "" "files" = .ok "" ∧
    ((stageFiles cwd svc (.inr fs) g).gitCalls ≠ [] →
      ∀ x ∈ fs, x = "." ∨ x = "" ∨
        pathResolve cwd svc.repoPath (pathNormalize x) = svc.repoPath ∨
        isWithinDirectory (pathResolve cwd svc.repoPath (pathNormalize x))
          svc.repoPath = true) ∧
    ((unstageFiles cwd svc (.inr fs) g).gitCalls ≠ [] →
      ∀ x ∈ fs, x = "." ∨ x = "" ∨
        pathResolve cwd svc.repoPath (pathNormalize x) = svc.repoPath ∨
        isWithinDirectory (pathResolve cwd svc.repoPath (pathNormalize x))
          svc.repoPath = true) ∧
    ((stageFiles cwd svc (.inl f) g).gitCalls ≠ [] →
      f = "." ∨ f = "" ∨
        pathResolve cwd svc.repoPath (pathNormalize f) = svc.repoPath ∨
        isWithinDirectory (pathResolve cwd svc.repoPath (pathNormalize f))
          svc.repoPath = true) ∧
    ((unstageFiles cwd svc (.inl f) g).gitCalls ≠ [] →
      f = "." ∨ f = "" ∨
        pathResolve cwd svc.repoPath (pathNormalize f) = svc.repoPath ∨
        isWithinDirectory (pathResolve cwd svc.repoPath (pathNormalize f))
          svc.repoPath = true) := by
  refine ⟨rfl, rfl, ?_, ?_, ?_, ?_⟩
  · intro hne x hx
    cases fs with
    | nil => exact absurd hx (List.not_mem_nil x)
    | cons f0 fs0 =>
      cases hv : validateFilesList cwd svc (f0 :: fs0) with
      | error e => simp [stageFiles, hv] at hne
      | ok vs =>
        obtain ⟨v, hvx⟩ := validateFilesList_ok_member cwd svc (f0 :: fs0) vs hv x hx
        exact validateRelativePath_ok_cases cwd svc x "files" v hvx
  · intro hne x hx
    cases fs with
    | nil => exact absurd hx (List.not_mem_nil x)
    | cons f0 fs0 =>
      cases hv : validateFilesList cwd svc (f0 :: fs0) with
      | error e => simp [unstageFiles, hv] at hne
      | ok vs =>
        obtain ⟨v, hvx⟩ := validateFilesList_ok_member cwd svc (f0 :: fs0) vs hv x hx
        exact validateRelativePath_ok_cases cwd svc x "files" v hvx
  · intro hne
    cases hv : validateRelativePath cwd svc f "files" with
    | error e => simp [stageFiles, hv] at hne
    | ok v => exact validateRelativePath_ok_cases cwd svc f "files" v hv
  · intro hne
    cases hv : validateRelativePath cwd svc f "files" with
    | error e => simp [unstageFiles, hv] at hne
    | ok v => exact validateRelativePath_ok_cases cwd svc f "files" v hv

/-- Witness for C9: staging the list consisting of the dot marker, an
ordinary repository file and the empty string invokes git add, and the
ordinary member satisfied the sandbox check. -/
theorem C9_members_validated_marker_bypassed_witness :
    (stageFiles "/" ⟨"/repo"⟩ (.inr [".", "sub/file", ""]) (.ok "")).gitCalls ≠ [] ∧
    ("sub/file" = "." ∨ "sub/file" = "" ∨
      pathResolve "/" (GitService.mk "/repo").repoPath (pathNormalize "sub/file")
        = (GitService.mk "/repo").repoPath ∨
      isWithinDirectory
        (pathResolve "/" (GitService.mk "/repo").repoPath (pathNormalize "sub/file"))
        (GitService.mk "/repo").repoPath = true) := by
  have hne : (stageFiles "/" ⟨"/repo"⟩ (.inr [".", "sub/file", ""]) (.ok "")).gitCalls ≠ [] := by
    intro hembed
    exact List.noConfusion hembed
  exact ⟨hne,
    (C9_members_validated_marker_bypassed "/" ⟨"/repo"⟩ "x" [".", "sub/file", ""]
      (.ok "")).2.2.1 hne "sub/file" (by simp)⟩

end GitMcp

namespace GitMcp

/-- A standardized error with a nonempty code caught by the guarded catch
block is rethrown unchanged. -/
theorem catchRethrowStd_std_rethrow {A : Type} (e : StandardizedError) (d : String)
    (hne : e.errorCode ≠ "") :
    catchRethrowStd (A := A) (.std e) d = .error e := by
  simp only [catchRethrowStd, if_neg hne]

/-- If the guarded catch block ended in a rethrow, the rethrown error is
the caught one. -/
theorem catchRethrowStd_error_eq {A : Type} {e2 e : StandardizedError} {d : String}
    (h : catchRethrowStd (A := A) (.std e2) d = .error e) : e = e2 := by
  simp only [catchRethrowStd] at h
  by_cases hc : e2.errorCode = ""
  · rw [if_pos hc] at h
    exact Except.noConfusion h
  · rw [if_neg hc] at h
    injection h with h1
    exact h1.symm

end GitMcp

namespace GitMcp

/-- Auxiliary to C3: stageFiles only throws rethrown validation errors. -/
theorem vto_stageFiles (cwd : String) (svc : GitService)
    (files : String ⊕ List String) (g : GitOutcome String) :
    validationThrowOnly (stageFiles cwd svc files g) := by
  intro e he
  cases files with
  | inl f =>
    cases hv : validateRelativePath cwd svc f "files" with
    | error e2 =>
      have hshape := validateRelativePath_error_shape cwd svc f "files" e2 hv
      simp only [stageFiles, hv] at he
      have he2 := catchRethrowStd_error_eq he
      rw [he2]
      exact ⟨hshape.1, hshape.2.1, hshape.2.2, by simp [stageFiles, hv]⟩
    | ok v =>
      cases g with
      | ok s => simp only [stageFiles, hv] at he; exact Except.noConfusion he
      | gitFail g2 => simp only [stageFiles, hv] at he; exact Except.noConfusion he
      | exn m => simp only [stageFiles, hv] at he; exact Except.noConfusion he
  | inr l =>
    cases l with
    | nil => simp only [stageFiles] at he; exact Except.noConfusion he
    | cons f0 fs0 =>
      cases hv : validateFilesList cwd svc (f0 :: fs0) with
      | error e2 =>
        have hshape := validateFilesList_error_shape cwd svc (f0 :: fs0) e2 hv
        simp only [stageFiles, hv] at he
        have he2 := catchRethrowStd_error_eq he
        rw [he2]
        exact ⟨hshape.1, hshape.2.1, hshape.2.2, by simp [stageFiles, hv]⟩
      | ok vs =>
        cases g with
        | ok s => simp only [stageFiles, hv] at he; exact Except.noConfusion he
        | gitFail g2 => simp only [stageFiles, hv] at he; exact Except.noConfusion he
        | exn m => simp only [stageFiles, hv] at he; exact Except.noConfusion he

/-- Auxiliary to C3: unstageFiles only throws rethrown validation
errors. -/
theorem vto_unstageFiles (cwd : String) (svc : GitService)
    (files : String ⊕ List String) (g : GitOutcome String) :
    validationThrowOnly (unstageFiles cwd svc files g) := by
  intro e he
  cases files with
  | inl f =>
    cases hv : validateRelativePath cwd svc f "files" with
    | error e2 =>
      have hshape := validateRelativePath_error_shape cwd svc f "files" e2 hv
      simp only [unstageFiles, hv] at he
      have he2 := catchRethrowStd_error_eq he
      rw [he2]
      exact ⟨hshape.1, hshape.2.1, hshape.2.2, by simp [unstageFiles, hv]⟩
    | ok v =>
      cases g with
      | ok s => simp only [unstageFiles, hv] at he; exact Except.noConfusion he
      | gitFail g2 => simp only [unstageFiles, hv] at he; exact Except.noConfusion he
      | exn m => simp only [unstageFiles, hv] at he; exact Except.noConfusion he
  | inr l =>
    cases l with
    | nil => simp only [unstageFiles] at he; exact Except.noConfusion he
    | cons f0 fs0 =>
      cases hv : validateFilesList cwd svc (f0 :: fs0) with
      | error e2 =>
        have hshape := validateFilesList_error_shape cwd svc (f0 :: fs0) e2 hv
        simp only [unstageFiles, hv] at he
        have he2 := catchRethrowStd_error_eq he
        rw [he2]
        exact ⟨hshape.1, hshape.2.1, hshape.2.2, by simp [unstageFiles, hv]⟩
      | ok vs =>
        cases g with
        | ok s => simp only [unstageFiles, hv] at he; exact Except.noConfusion he
        | gitFail g2 => simp only [unstageFiles, hv] at he; exact Except.noConfusion he
        | exn m => simp only [unstageFiles, hv] at he; exact Except.noConfusion he

/-- Auxiliary to C3: getBlame only throws rethrown validation errors. -/
theorem vto_getBlame (cwd : String) (svc : GitService) (filePath : String)
    (g : GitOutcome String) :
    validationThrowOnly (getBlame cwd svc filePath g) := by
  intro e he
  cases hv : validateRelativePath cwd svc filePath "filePath" with
  | error e2 =>
    have hshape := validateRelativePath_error_shape cwd svc filePath "filePath" e2 hv
    simp only [getBlame, hv] at he
    have he2 := catchRethrowStd_error_eq he
    rw [he2]
    exact ⟨hshape.1, hshape.2.1, hshape.2.2, by simp [getBlame, hv]⟩
  | ok v =>
    cases g with
    | ok s => simp only [getBlame, hv] at he; exact Except.noConfusion he
    | gitFail g2 => simp only [getBlame, hv] at he; exact Except.noConfusion he
    | exn m => simp only [getBlame, hv] at he; exact Except.noConfusion he

/-- Auxiliary to C3: listFilesAtRef only throws rethrown validation
errors. -/
theorem vto_listFilesAtRef (cwd : String) (svc : GitService) (dirPath ref : String)
    (gLs : List String → GitOutcome String) :
    validationThrowOnly (listFilesAtRef cwd svc dirPath ref gLs) := by
  intro e he
  cases hv : validateRelativePath cwd svc dirPath "dirPath" with
  | error e2 =>
    have hshape := validateRelativePath_error_shape cwd svc dirPath "dirPath" e2 hv
    simp only [listFilesAtRef, hv] at he
    have he2 := catchRethrowStd_error_eq he
    rw [he2]
    exact ⟨hshape.1, hshape.2.1, hshape.2.2, by simp [listFilesAtRef, hv]⟩
  | ok v =>
    cases hg : gLs ["ls-tree", "--name-only", ref, v] with
    | ok s => simp only [listFilesAtRef, hv, hg] at he; exact Except.noConfusion he
    | gitFail g2 => simp only [listFilesAtRef, hv, hg] at he; exact Except.noConfusion he
    | exn m => simp only [listFilesAtRef, hv, hg] at he; exact Except.noConfusion he

/-- Auxiliary to C3: the operations whose catch wraps every exception
(merge, cherry-pick, initialize) never throw at all. -/
theorem vto_unguarded_ops (svc : GitService) (options : GitMergeOptions)
    (commits : List String) (bare : Bool) (initialBranch : String)
    (env : InitEnv) (g : GitOutcome String) :
    validationThrowOnly (mergeOp svc options g) ∧
    validationThrowOnly (cherryPick svc commits g) ∧
    validationThrowOnly (initRepo svc bare initialBranch env) := by
  refine ⟨?_, ?_, ?_⟩
  · intro e he
    cases g with
    | ok s => exact Except.noConfusion he
    | gitFail g2 => exact Except.noConfusion he
    | exn m => exact Except.noConfusion he
  · intro e he
    cases commits with
    | nil => exact Except.noConfusion he
    | cons c cs =>
      cases g with
      | ok s => exact Except.noConfusion he
      | gitFail g2 => exact Except.noConfusion he
      | exn m => exact Except.noConfusion he
  · intro e he
    cases hd : env.ensureDirFailure with
    | some m => simp only [initRepo, hd] at he; exact Except.noConfusion he
    | none =>
      cases hi : env.initOutcome with
      | ok r =>
        simp only [initRepo, hd, hi] at he
        cases bare with
        | true => exact Except.noConfusion he
        | false => exact Except.noConfusion he
      | gitFail g2 => simp only [initRepo, hd, hi] at he; exact Except.noConfusion he
      | exn m => simp only [initRepo, hd, hi] at he; exact Except.noConfusion he

end GitMcp

namespace GitMcp

/-- Auxiliary to C3: when stageFiles actually invoked git and the call
failed, the failure comes back classified in the envelope. -/
theorem ufw_stageFiles (cwd : String) (svc : GitService)
    (files : String ⊕ List String) :
    underlyingFailureWrapped (stageFiles cwd svc files) "Failed to stage files" := by
  intro g2 m
  constructor
  · intro hne
    cases files with
    | inl f =>
      cases hv : validateRelativePath cwd svc f "files" with
      | error e2 => simp [stageFiles, hv] at hne
      | ok v => simp only [stageFiles, hv]; rfl
    | inr l =>
      cases l with
      | nil => simp [stageFiles] at hne
      | cons f0 fs0 =>
        cases hv : validateFilesList cwd svc (f0 :: fs0) with
        | error e2 => simp [stageFiles, hv] at hne
        | ok vs => simp only [stageFiles, hv]; rfl
  · intro hne
    cases files with
    | inl f =>
      cases hv : validateRelativePath cwd svc f "files" with
      | error e2 => simp [stageFiles, hv] at hne
      | ok v => simp only [stageFiles, hv]; rfl
    | inr l =>
      cases l with
      | nil => simp [stageFiles] at hne
      | cons f0 fs0 =>
        cases hv : validateFilesList cwd svc (f0 :: fs0) with
        | error e2 => simp [stageFiles, hv] at hne
        | ok vs => simp only [stageFiles, hv]; rfl

/-- Auxiliary to C3: the same for unstageFiles. -/
theorem ufw_unstageFiles (cwd : String) (svc : GitService)
    (files : String ⊕ List String) :
    underlyingFailureWrapped (unstageFiles cwd svc files)
      "Failed to unstage files" := by
  intro g2 m
  constructor
  · intro hne
    cases files with
    | inl f =>
      cases hv : validateRelativePath cwd svc f "files" with
      | error e2 => simp [unstageFiles, hv] at hne
      | ok v => simp only [unstageFiles, hv]; rfl
    | inr l =>
      cases l with
      | nil => simp [unstageFiles] at hne
      | cons f0 fs0 =>
        cases hv : validateFilesList cwd svc (f0 :: fs0) with
        | error e2 => simp [unstageFiles, hv] at hne
        | ok vs => simp only [unstageFiles, hv]; rfl
  · intro hne
    cases files with
    | inl f =>
      cases hv : validateRelativePath cwd svc f "files" with
      | error e2 => simp [unstageFiles, hv] at hne
      | ok v => simp only [unstageFiles, hv]; rfl
    | inr l =>
      cases l with
      | nil => simp [unstageFiles] at hne
      | cons f0 fs0 =>
        cases hv : validateFilesList cwd svc (f0 :: fs0) with
        | error e2 => simp [unstageFiles, hv] at hne
        | ok vs => simp only [unstageFiles, hv]; rfl

/-- Auxiliary to C3: the same for merge and cherry-pick. -/
theorem ufw_merge_cherry (svc : GitService) (options : GitMergeOptions)
    (commits : List String) :
    underlyingFailureWrapped (mergeOp svc options) "Failed to merge branch" ∧
    underlyingFailureWrapped (cherryPick svc commits)
      "Failed to cherry-pick commits" := by
  constructor
  · intro g2 m
    exact ⟨fun _ => rfl, fun _ => rfl⟩
  · intro g2 m
    cases commits with
    | nil => exact ⟨fun hne => absurd rfl hne, fun hne => absurd rfl hne⟩
    | cons c cs => exact ⟨fun _ => rfl, fun _ => rfl⟩

end GitMcp

namespace GitMcp

/-- C3: for the modeled facade operations, every underlying-command
failure is caught and returned as the failure branch of the result
envelope, never thrown across the facade boundary
(underlyingFailureWrapped, plus validationThrowOnly stating that a thrown
outcome can only be a pre-command standardized Validation rejection with
no git command invoked); the single exception is a standardized error
raised by path validation before the git command ran, which is rethrown
unchanged, category and severity intact (the final conjunct and
validationThrowOnly together). -/
theorem C3_failures_wrapped_rejections_rethrown
    (cwd : String) (svc : GitService) (files : String ⊕ List String)
    (filePath dirPath ref initialBranch : String) (options : GitMergeOptions)
    (commits : List String) (bare : Bool) (env : InitEnv)
    (g : GitOutcome String) (gLs : List String → GitOutcome String) :
    validationThrowOnly (stageFiles cwd svc files g) ∧
    validationThrowOnly (unstageFiles cwd svc files g) ∧
    validationThrowOnly (getBlame cwd svc filePath g) ∧
    validationThrowOnly (listFilesAtRef cwd svc dirPath ref gLs) ∧
    validationThrowOnly (mergeOp svc options g) ∧
    validationThrowOnly (cherryPick svc commits g) ∧
    validationThrowOnly (initRepo svc bare initialBranch env) ∧
    underlyingFailureWrapped (stageFiles cwd svc files) "Failed to stage files" ∧
    underlyingFailureWrapped (unstageFiles cwd svc files)
      "Failed to unstage files" ∧
    underlyingFailureWrapped (mergeOp svc options) "Failed to merge branch" ∧
    underlyingFailureWrapped (cherryPick svc commits)
      "Failed to cherry-pick commits" ∧
    (∀ e, validateRelativePath cwd svc filePath "filePath" = .error e →
      (getBlame cwd svc filePath g).outcome = .error e) := by
  obtain ⟨hm, hc, hi⟩ := vto_unguarded_ops svc options commits bare initialBranch env g
  obtain ⟨hmw, hcw⟩ := ufw_merge_cherry svc options commits
  refine ⟨vto_stageFiles cwd svc files g, vto_unstageFiles cwd svc files g,
    vto_getBlame cwd svc filePath g, vto_listFilesAtRef cwd svc dirPath ref gLs,
    hm, hc, hi, ufw_stageFiles cwd svc files, ufw_unstageFiles cwd svc files,
    hmw, hcw, ?_⟩
  intro e hv
  have hshape := validateRelativePath_error_shape cwd svc filePath "filePath" e hv
  simp only [getBlame, hv]
  refine catchRethrowStd_std_rethrow e "Failed to get blame" ?_
  rw [hshape.2.2]
  decide

/-- Witness for C3 at a concrete traversal: getBlame on a path escaping
the repository root rethrows exactly the validation error the path check
produced. -/
theorem C3_failures_wrapped_rejections_rethrown_witness :
    (getBlame "/" ⟨"/data/repoA"⟩ "../repoB/x" (.ok "")).outcome
      = .error (createStandardizedError
          "Access denied: path attempts to traverse outside the repository root"
          "PATH_TRAVERSAL_ATTEMPT"
          ErrorCategoryType.validation ErrorSeverityLevel.severityError
          [("requestedPath", "../repoB/x"), ("resolvedPath", "/data/repoB/x"),
           ("repoPath", "/data/repoA"), ("parameter", "filePath")]) :=
  (C3_failures_wrapped_rejections_rethrown "/" ⟨"/data/repoA"⟩ (.inl ".")
      "../repoB/x" "." "HEAD" "main" ⟨"b", none, false, false⟩ [] false
      ⟨none, .ok "", none, .ok "", .ok ""⟩ (.ok "")
      (fun _ => .ok "")).2.2.2.2.2.2.2.2.2.2.2
    (createStandardizedError
      "Access denied: path attempts to traverse outside the repository root"
      "PATH_TRAVERSAL_ATTEMPT"
      ErrorCategoryType.validation ErrorSeverityLevel.severityError
      [("requestedPath", "../repoB/x"), ("resolvedPath", "/data/repoB/x"),
       ("repoPath", "/data/repoA"), ("parameter", "filePath")]) rfl

end GitMcp
